import Mathlib

/- Verification of the watermark-removal core of Krimonourti/Sora-2-watermark-remover.
   The embedding follows src/app/watermark_removal.py and src/app/main.py.  Calls into
   the external OpenCV library (matchTemplate, minMaxLoc, dilate, inpaint, VideoCapture,
   VideoWriter) are modelled at their interface: matchTemplate's output is taken as a
   matrix of rational correlation scores, minMaxLoc and dilate are given their documented
   semantics, and the capture/writer/codec outcomes are inputs of the job environment. -/

namespace Sora

/-- Mirrors the dataclass WatermarkDetection of src/app/watermark_removal.py:
top_left = (x, y), size = (w, h) and the raw matchTemplate confidence, taken in ℚ. -/
structure WatermarkDetection where
  top_left : Nat × Nat
  size : Nat × Nat
  confidence : ℚ
deriving DecidableEq, Repr

/-- The bbox property of WatermarkDetection: (x, y, w, h). -/
def WatermarkDetection.bbox (d : WatermarkDetection) : Nat × Nat × Nat × Nat :=
  (d.top_left.1, d.top_left.2, d.size.1, d.size.2)

/-- The correlation-score matrix produced by the external cv2.matchTemplate call:
one rational score per template alignment, row-major, entry at row y and column x
scoring the alignment with top-left corner (x, y). -/
abbrev ScoreMat := List (List ℚ)

/-- All entries of a score matrix as (value, x, y) triples in the row-major order in
which the external cv2.minMaxLoc scans them. -/
def matEntries (m : ScoreMat) : List (ℚ × Nat × Nat) :=
  m.enum.flatMap fun r => r.2.enum.map fun c => (c.2, c.1, r.1)

/-- One comparison step of minMaxLoc's scan: the first maximum seen is kept, a later
entry replaces it only when strictly greater. -/
def pickMax (best c : ℚ × Nat × Nat) : ℚ × Nat × Nat :=
  if best.1 < c.1 then c else best

/-- The (max value, max location) half of the external cv2.minMaxLoc, none on an
empty matrix. -/
def maxLocOf (m : ScoreMat) : Option (ℚ × Nat × Nat) :=
  match matEntries m with
  | [] => none
  | e :: es => some (es.foldl pickMax e)

/-- Mirrors _detect_watermark (src/app/watermark_removal.py lines 43-51).  The result
of the external cv2.matchTemplate call is the score-matrix argument; tw and th are the
template's width and height (template.shape reversed, as in line 50). -/
def _detect_watermark (result : ScoreMat) (tw th : Nat) (threshold : ℚ) :
    Option WatermarkDetection :=
  match maxLocOf result with
  | none => none
  | some (v, x, y) => if v < threshold then none else some ⟨(x, y), (tw, th), v⟩

/-- The tracker update of process_video (src/app/watermark_removal.py lines 114-117):
adopt a present candidate whose confidence is at least the current one, otherwise keep
the current detection. -/
def stepTracked (cur : WatermarkDetection) (cand : Option WatermarkDetection) :
    WatermarkDetection :=
  match cand with
  | none => cur
  | some u => if cur.confidence ≤ u.confidence then u else cur

/-- The per-frame loop of process_video (lines 105-121) over the per-frame score
matrices, carrying the tracked state; returns the detection used to build each frame's
mask, or an error on a first-frame miss (lines 106-113). -/
def frameLoopGo (tw th : Nat) (threshold : ℚ) :
    Option WatermarkDetection → List ScoreMat → Except Unit (List WatermarkDetection)
  | _, [] => Except.ok []
  | none, f :: rest =>
    match _detect_watermark f tw th threshold with
    | none => Except.error ()
    | some d => (frameLoopGo tw th threshold (some d) rest).map fun l => d :: l
  | some cur, f :: rest =>
    let d := stepTracked cur (_detect_watermark f tw th threshold)
    (frameLoopGo tw th threshold (some d) rest).map fun l => d :: l

/-- The frame loop started with no detection, as at line 103. -/
def frameLoop (tw th : Nat) (threshold : ℚ) (frames : List ScoreMat) :
    Except Unit (List WatermarkDetection) :=
  frameLoopGo tw th threshold none frames

/-- Membership of pixel (row i, column j) in the detection's unexpanded bounding box:
the numpy slice mask[y : y + h, x : x + w] of line 57. -/
def inBBox (d : WatermarkDetection) (i j : Nat) : Prop :=
  d.top_left.2 ≤ i ∧ i < d.top_left.2 + d.size.2
    ∧ d.top_left.1 ≤ j ∧ j < d.top_left.1 + d.size.1

instance (d : WatermarkDetection) (i j : Nat) : Decidable (inBBox d i j) := by
  unfold inBBox; infer_instance

/-- The rectangle stage of _build_inpaint_mask before dilation (lines 55-57); the numpy
slice clips to the array, which the model reflects by only reading in-frame pixels. -/
def rectMask (d : WatermarkDetection) (i j : Nat) : Nat :=
  if inBBox d i j then 255 else 0

/-- Whether source pixel (a, b) makes destination pixel (i, j) fire under a 5x5 all-ones
kernel anchored at its center: Chebyshev distance at most 2 and a nonzero source. -/
def hit5 (src : Nat → Nat → Nat) (i j a b : Nat) : Bool :=
  decide (i ≤ a + 2) && decide (a ≤ i + 2) && decide (j ≤ b + 2) && decide (b ≤ j + 2)
    && decide (src a b ≠ 0)

/-- One pass of the external cv2.dilate with kernel np.ones((5, 5)) (lines 59-60):
a pixel becomes 255 exactly when some in-frame source pixel within Chebyshev distance 2
is nonzero; the constant border does not contribute. -/
def dilate5 (H W : Nat) (src : Nat → Nat → Nat) (i j : Nat) : Nat :=
  if (List.range H).any (fun a => (List.range W).any fun b => hit5 src i j a b)
  then 255 else 0

/-- A single-channel image of given dimensions (the mask built by _build_inpaint_mask). -/
structure MaskImg where
  H : Nat
  W : Nat
  pix : Nat → Nat → Nat

/-- Mirrors _build_inpaint_mask (src/app/watermark_removal.py lines 54-61): a zero mask
of the frame's shape, the detection's bounding box filled with 255, then one dilation
pass with the 5x5 kernel. -/
def _build_inpaint_mask (frameH frameW : Nat) (d : WatermarkDetection) : MaskImg :=
  ⟨frameH, frameW, fun i j => dilate5 frameH frameW (rectMask d) i j⟩

/-- A color frame: dimensions, channel count and rational pixel values. -/
structure ImageQ where
  H : Nat
  W : Nat
  C : Nat
  pix : Nat → Nat → Nat → ℚ

/-- The keep pixels (mask value 0) within Chebyshev distance 3 of (i, j), the fixed
inpainting search radius of line 120. -/
def keepNear (img : ImageQ) (mask : MaskImg) (i j : Nat) : List (Nat × Nat) :=
  (List.range img.H).flatMap fun a =>
    ((List.range img.W).filter fun b =>
      decide (i ≤ a + 3) && decide (a ≤ i + 3) && decide (j ≤ b + 3) && decide (b ≤ j + 3)
        && decide (mask.pix a b = 0)).map fun b => (a, b)

/-- The value synthesized for a fill pixel: the mean of the nearby keep pixels. -/
def synthPix (img : ImageQ) (mask : MaskImg) (i j c : Nat) : ℚ :=
  let ns := keepNear img mask i j
  (ns.map fun p => img.pix p.1 p.2 c).sum / (ns.length : ℚ)

/-- Modelled from the spec: the Reconstructor of section 4.5 exists in the source only as
the external cv2.inpaint Telea call at line 120, whose algorithm is not part of this
repository.  Following the spec's words, the output has the input's dimensions and
channel count, keep pixels (mask value 0) pass through unchanged, and each fill pixel is
replaced by a value synthesized from keep pixels within the fixed search radius 3. -/
def inpaint (img : ImageQ) (mask : MaskImg) : ImageQ :=
  { img with
    pix := fun i j c =>
      if mask.pix i j = 0 then img.pix i j c else synthPix img mask i j c }

/-- Split a character list on a separator character (pathlib's component split). -/
def splitOnChar (sep : Char) : List Char → List (List Char)
  | [] => [[]]
  | a :: rest =>
    let r := splitOnChar sep rest
    if a = sep then [] :: r
    else
      match r with
      | [] => [[a]]
      | g :: gs => (a :: g) :: gs

/-- pathlib's Path(...).name as a character list: the final path component, with empty
and single-dot components dropped during parsing (PurePosixPath semantics). -/
def pathName (s : String) : List Char :=
  (((splitOnChar '/' s.toList).filter fun c =>
      decide (c ≠ [] ∧ c ≠ ['.'])).getLast?).getD []

/-- Index of the last '.' in a name (Python str.rfind), none when no dot occurs. -/
def lastDotPos (l : List Char) : Option Nat :=
  ((List.range l.length).filter fun i => decide (l.getD i ' ' = '.')).getLast?

/-- pathlib's Path(...).suffix: the final extension including its dot, present only when
the last dot is neither the first nor the last character of the name. -/
def pathSuffix (s : String) : String :=
  let n := pathName s
  match lastDotPos n with
  | none => ""
  | some i => if 0 < i ∧ i + 1 < n.length then String.mk (n.drop i) else ""

/-- pathlib's Path(...).stem: the final component without its suffix. -/
def pathStem (s : String) : String :=
  let n := pathName s
  match lastDotPos n with
  | none => String.mk n
  | some i => if 0 < i ∧ i + 1 < n.length then String.mk (n.take i) else String.mk n

/-- Python str.lower on the ASCII names involved. -/
def strLower (s : String) : String :=
  String.mk (s.toList.map Char.toLower)

/-- The output file name built at line 87: f-string stem + "_clean.mp4". -/
def outputFileName (inputName : String) : String :=
  pathStem inputName ++ "_clean.mp4"

/-- Python's `x or y` for a float x, as used at line 81: y exactly when x is falsy
(zero), otherwise x itself. -/
def pyFloatOr (x y : ℚ) : ℚ :=
  if x = 0 then y else x

/-- The fault kinds of process_video, one per raise site. -/
inductive PVErr where
  | inputMissing
  | templateNotFound
  | templateUnreadable
  | captureFailed
  | writerFailed
  | watermarkNotFound
  | emptyOutput
deriving DecidableEq, Repr

/-- Environment of one process_video job: the outcomes of the external filesystem and
OpenCV calls together with the job inputs.  frames holds the matchTemplate score matrix
of each frame in order; finalOutput is the output file's size once the writer has been
released (none when the codec left no file); writerCreates tells whether a writer that
fails to open still creates the output file. -/
structure Env where
  inputExists : Bool
  templateExists : Bool
  templateReadable : Bool
  captureOpens : Bool
  reportedFps : ℚ
  writerOpens : Bool
  writerCreates : Bool
  templateW : Nat
  templateH : Nat
  threshold : ℚ
  frames : List ScoreMat
  finalOutput : Option Nat
  inputName : String
deriving DecidableEq, Repr

/-- Filesystem state relevant to one job: the output directory, and the output file as
none = absent or some n = present with size n. -/
structure FS where
  outputDirExists : Bool
  outputFile : Option Nat
deriving DecidableEq, Repr

/-- Successful result of process_video: the returned path's file name, the frame rate
the writer was opened with, and the tracked detection used for each frame. -/
structure PVOk where
  outName : String
  fpsUsed : ℚ
  tracked : List WatermarkDetection
deriving DecidableEq, Repr

/-- Mirrors process_video (src/app/watermark_removal.py lines 64-129) over Env and FS.
Guard order, filesystem effects (mkdir at line 86, the writer's file creation, the
unlink in the watermark-not-found branch at line 110) and the final emptiness check at
lines 126-127 follow the source line by line. -/
def process_video (env : Env) (fs : FS) : Except PVErr PVOk × FS :=
  if env.inputExists = false then (Except.error PVErr.inputMissing, fs)
  else if env.templateExists = false then (Except.error PVErr.templateNotFound, fs)
  else if env.templateReadable = false then (Except.error PVErr.templateUnreadable, fs)
  else if env.captureOpens = false then (Except.error PVErr.captureFailed, fs)
  else
    let fps := pyFloatOr env.reportedFps 30
    let fs1 : FS :=
      { outputDirExists := true
        outputFile := if env.writerOpens || env.writerCreates then some 0 else fs.outputFile }
    if env.writerOpens = false then (Except.error PVErr.writerFailed, fs1)
    else
      match frameLoop env.templateW env.templateH env.threshold env.frames with
      | Except.error _ => (Except.error PVErr.watermarkNotFound, { fs1 with outputFile := none })
      | Except.ok tracked =>
        let fs2 : FS := { fs1 with outputFile := env.finalOutput }
        match env.finalOutput with
        | none => (Except.error PVErr.emptyOutput, fs2)
        | some n =>
          if n = 0 then (Except.error PVErr.emptyOutput, fs2)
          else
            (Except.ok
              { outName := outputFileName env.inputName, fpsUsed := fps, tracked := tracked },
             fs2)

/-- True exactly on a failed job result. -/
def pvFailed : Except PVErr PVOk → Bool
  | Except.error _ => true
  | Except.ok _ => false

/-- Whether a job succeeds, as a function of the environment alone. -/
def jobSucceeds (env : Env) : Bool :=
  env.inputExists && env.templateExists && env.templateReadable && env.captureOpens
    && env.writerOpens
    && (match frameLoop env.templateW env.templateH env.threshold env.frames with
        | Except.error _ => false
        | Except.ok _ => true)
    && (match env.finalOutput with
        | none => false
        | some n => !(n == 0))

/-- The extensions accepted by process_upload (src/app/main.py line 36). -/
def allowedSuffixes : List String :=
  [".mp4", ".mov", ".mkv", ".avi", ".webm"]

/-- Outcome of the upload endpoint: an HTTP rejection before the core runs, or the
core's result. -/
inductive UploadOutcome where
  | rejected (status : Nat)
  | processed (result : Except PVErr PVOk)

/-- Mirrors the validation prefix of process_upload (src/app/main.py lines 32-46): an
empty filename and an unsupported extension are rejected with HTTP 400 before
process_video runs; only the filename's lowercased suffix is consulted. -/
def process_upload (filename : String) (env : Env) (fs : FS) : UploadOutcome × FS :=
  if filename = "" then (UploadOutcome.rejected 400, fs)
  else if strLower (pathSuffix filename) ∈ allowedSuffixes then
    let r := process_video env fs
    (UploadOutcome.processed r.1, r.2)
  else (UploadOutcome.rejected 400, fs)

/-- A detection with full confidence at the origin of a one-pixel template. -/
def dOne : WatermarkDetection := ⟨(0, 0), (1, 1), 1⟩

/-- A detection with confidence one half. -/
def dHalf : WatermarkDetection := ⟨(0, 0), (1, 1), mkRat 1 2⟩

/-- A candidate with higher confidence than dHalf. -/
def dHigh : WatermarkDetection := ⟨(1, 1), (1, 1), mkRat 3 4⟩

/-- A candidate with lower confidence than dHalf. -/
def dLow : WatermarkDetection := ⟨(2, 2), (1, 1), mkRat 1 4⟩

/-- A detection strictly inside a 4x4 frame. -/
def dMid : WatermarkDetection := ⟨(1, 1), (2, 2), 1⟩

/-- A fully successful one-frame job environment. -/
def envOk : Env :=
  { inputExists := true, templateExists := true, templateReadable := true
    captureOpens := true, reportedFps := 24, writerOpens := true, writerCreates := true
    templateW := 1, templateH := 1, threshold := mkRat 7 20
    frames := [[[1]]], finalOutput := some 5, inputName := "video.mp4" }

/-- The initial filesystem state with no output artifacts. -/
def fs0 : FS := { outputDirExists := false, outputFile := none }

/-- The expected successful result of envOk. -/
def rOk : PVOk := { outName := "video_clean.mp4", fpsUsed := 24, tracked := [dOne] }

/-- The filesystem state after the successful envOk job. -/
def fsDone : FS := { outputDirExists := true, outputFile := some 5 }

/-- A job whose pass completes but whose output file comes out empty (size 0). -/
def envEmptyOut : Env := { envOk with finalOutput := some 0 }

/-- A job whose first frame's best score is below the threshold. -/
def envNoMark : Env := { envOk with frames := [[[0]]] }

/-- A constant test frame. -/
def imgConst : ImageQ := ⟨2, 2, 3, fun _ _ _ => 7⟩

/-- An all-keep test mask. -/
def maskZero : MaskImg := ⟨2, 2, fun _ _ => 0⟩

theorem pickMax_le_left (e a : ℚ × Nat × Nat) : e.1 ≤ (pickMax e a).1 := by
  unfold pickMax
  split
  · exact le_of_lt (by assumption)
  · exact le_refl _

theorem pickMax_le_right (e a : ℚ × Nat × Nat) : a.1 ≤ (pickMax e a).1 := by
  unfold pickMax
  split
  · exact le_refl _
  · exact le_of_not_lt (by assumption)

theorem foldl_pickMax_mem (es : List (ℚ × Nat × Nat)) :
    ∀ e, List.foldl pickMax e es ∈ e :: es := by
  induction es with
  | nil => intro e; simp
  | cons a tl ih =>
    intro e
    rw [List.foldl_cons]
    rcases List.mem_cons.mp (ih (pickMax e a)) with h1 | h2
    · rw [h1]
      by_cases hc : e.1 < a.1
      · simp [pickMax, hc]
      · simp [pickMax, hc]
    · exact List.mem_cons_of_mem _ (List.mem_cons_of_mem _ h2)

theorem foldl_pickMax_le (es : List (ℚ × Nat × Nat)) :
    ∀ e c, c ∈ e :: es → c.1 ≤ (List.foldl pickMax e es).1 := by
  induction es with
  | nil =>
    intro e c hc
    rw [List.mem_singleton] at hc
    rw [hc]
    simp
  | cons a tl ih =>
    intro e c hc
    rw [List.foldl_cons]
    rcases List.mem_cons.mp hc with h1 | h2
    · rw [h1]
      exact le_trans (pickMax_le_left e a) (ih (pickMax e a) _ (List.mem_cons_self _ _))
    · rcases List.mem_cons.mp h2 with h3 | h4
      · rw [h3]
        exact le_trans (pickMax_le_right e a) (ih (pickMax e a) _ (List.mem_cons_self _ _))
      · exact ih (pickMax e a) c (List.mem_cons_of_mem _ h4)

theorem maxLocOf_spec (m : ScoreMat) (hne : matEntries m ≠ []) :
    ∃ r, maxLocOf m = some r ∧ r ∈ matEntries m ∧ ∀ e ∈ matEntries m, e.1 ≤ r.1 := by
  unfold maxLocOf
  cases hm : matEntries m with
  | nil => exact absurd hm hne
  | cons e es =>
    exact ⟨es.foldl pickMax e, rfl, foldl_pickMax_mem es e,
      fun c hc => foldl_pickMax_le es e c hc⟩

theorem maxLocOf_mem (m : ScoreMat) (r : ℚ × Nat × Nat) (h : maxLocOf m = some r) :
    r ∈ matEntries m := by
  unfold maxLocOf at h
  cases hm : matEntries m with
  | nil => rw [hm] at h; exact absurd h (by simp)
  | cons e es =>
    rw [hm] at h
    have : es.foldl pickMax e = r := by
      have := h
      simpa using this
    rw [← this]
    exact foldl_pickMax_mem es e

theorem stepTracked_none (cur : WatermarkDetection) : stepTracked cur none = cur := rfl

theorem stepTracked_conf_le (cur : WatermarkDetection) (cand : Option WatermarkDetection) :
    cur.confidence ≤ (stepTracked cur cand).confidence := by
  cases cand with
  | none => exact le_refl _
  | some u =>
    simp only [stepTracked]
    split
    · assumption
    · exact le_refl _

theorem foldl_stepTracked_conf_le (cands : List (Option WatermarkDetection)) :
    ∀ cur : WatermarkDetection,
      cur.confidence ≤ (List.foldl stepTracked cur cands).confidence := by
  induction cands with
  | nil => intro cur; exact le_refl _
  | cons c tl ih =>
    intro cur
    rw [List.foldl_cons]
    exact le_trans (stepTracked_conf_le cur c) (ih (stepTracked cur c))

theorem frameLoopGo_some_ok (tw th : Nat) (thr : ℚ) :
    ∀ (frames : List ScoreMat) (cur : WatermarkDetection),
      ∃ out, frameLoopGo tw th thr (some cur) frames = Except.ok out
        ∧ out.length = frames.length := by
  intro frames
  induction frames with
  | nil => intro cur; exact ⟨[], rfl, rfl⟩
  | cons f rest ih =>
    intro cur
    rcases ih (stepTracked cur (_detect_watermark f tw th thr)) with ⟨out, hout, hlen⟩
    refine ⟨stepTracked cur (_detect_watermark f tw th thr) :: out, ?_, ?_⟩
    · simp only [frameLoopGo, hout, Except.map]
    · simp [hlen]

theorem frameLoop_error_iff (tw th : Nat) (thr : ℚ) (frames : List ScoreMat) :
    frameLoop tw th thr frames = Except.error () ↔
      ∃ f rest, frames = f :: rest ∧ _detect_watermark f tw th thr = none := by
  cases frames with
  | nil =>
    constructor
    · intro h; exact absurd h (by simp [frameLoop, frameLoopGo])
    · rintro ⟨f, rest, h, -⟩; exact absurd h (by simp)
  | cons f rest =>
    cases hd : _detect_watermark f tw th thr with
    | none =>
      constructor
      · intro _; exact ⟨f, rest, rfl, hd⟩
      · intro _; simp [frameLoop, frameLoopGo, hd]
    | some d =>
      constructor
      · intro h
        rcases frameLoopGo_some_ok tw th thr rest d with ⟨out, hout, -⟩
        rw [frameLoop] at h
        simp [frameLoopGo, hd, hout, Except.map] at h
      · rintro ⟨f', rest', heq, hnone⟩
        injection heq with h1 h2
        rw [← h1, hd] at hnone
        exact absurd hnone (by simp)

/-- C2: once a tracked detection is established the tracker never resets it to absent
and its confidence never decreases: an absent candidate leaves the current detection
unchanged, a present candidate with confidence at least the current one replaces it,
a present candidate with lower confidence is discarded, and along any candidate
sequence the tracked confidence is non-decreasing. -/
theorem C2_tracker_monotone (tw th : Nat) (thr : ℚ) (cur : WatermarkDetection)
    (cands : List (Option WatermarkDetection)) :
    stepTracked cur none = cur
    ∧ (∀ u : WatermarkDetection, cur.confidence ≤ u.confidence →
        stepTracked cur (some u) = u)
    ∧ (∀ u : WatermarkDetection, u.confidence < cur.confidence →
        stepTracked cur (some u) = cur)
    ∧ (∀ cand, cur.confidence ≤ (stepTracked cur cand).confidence)
    ∧ cur.confidence ≤ (List.foldl stepTracked cur cands).confidence
    ∧ (∀ frames : List ScoreMat,
        ∃ out, frameLoopGo tw th thr (some cur) frames = Except.ok out) := by
  refine ⟨rfl, ?_, ?_, stepTracked_conf_le cur, foldl_stepTracked_conf_le cands cur, ?_⟩
  · intro u h
    simp only [stepTracked, if_pos h]
  · intro u h
    simp only [stepTracked, if_neg (not_le.mpr h)]
  · intro frames
    rcases frameLoopGo_some_ok tw th thr frames cur with ⟨out, hout, -⟩
    exact ⟨out, hout⟩

/-- Witness for C2 at concrete detections: a higher-confidence candidate is adopted,
a lower-confidence one is discarded. -/
theorem C2_tracker_monotone_w :
    stepTracked dHalf (some dHigh) = dHigh ∧ stepTracked dHalf (some dLow) = dHalf :=
  ⟨(C2_tracker_monotone 1 1 1 dHalf []).2.1 dHigh (by decide),
   (C2_tracker_monotone 1 1 1 dHalf []).2.2.1 dLow (by decide)⟩

/-- Case analysis of process_video: each reachable branch with its guard facts and its
exact result value. -/
theorem process_video_char (env : Env) (fs : FS) :
    (env.inputExists = false
      ∧ process_video env fs = (Except.error PVErr.inputMissing, fs))
  ∨ (env.inputExists = true ∧ env.templateExists = false
      ∧ process_video env fs = (Except.error PVErr.templateNotFound, fs))
  ∨ (env.inputExists = true ∧ env.templateExists = true ∧ env.templateReadable = false
      ∧ process_video env fs = (Except.error PVErr.templateUnreadable, fs))
  ∨ (env.inputExists = true ∧ env.templateExists = true ∧ env.templateReadable = true
      ∧ env.captureOpens = false
      ∧ process_video env fs = (Except.error PVErr.captureFailed, fs))
  ∨ (env.inputExists = true ∧ env.templateExists = true ∧ env.templateReadable = true
      ∧ env.captureOpens = true ∧ env.writerOpens = false
      ∧ process_video env fs = (Except.error PVErr.writerFailed,
          ⟨true, if env.writerCreates = true then some 0 else fs.outputFile⟩))
  ∨ (env.inputExists = true ∧ env.templateExists = true ∧ env.templateReadable = true
      ∧ env.captureOpens = true ∧ env.writerOpens = true
      ∧ frameLoop env.templateW env.templateH env.threshold env.frames = Except.error ()
      ∧ process_video env fs = (Except.error PVErr.watermarkNotFound, ⟨true, none⟩))
  ∨ (env.inputExists = true ∧ env.templateExists = true ∧ env.templateReadable = true
      ∧ env.captureOpens = true ∧ env.writerOpens = true
      ∧ (∃ tracked,
          frameLoop env.templateW env.templateH env.threshold env.frames = Except.ok tracked)
      ∧ env.finalOutput = none
      ∧ process_video env fs = (Except.error PVErr.emptyOutput, ⟨true, none⟩))
  ∨ (env.inputExists = true ∧ env.templateExists = true ∧ env.templateReadable = true
      ∧ env.captureOpens = true ∧ env.writerOpens = true
      ∧ (∃ tracked,
          frameLoop env.templateW env.templateH env.threshold env.frames = Except.ok tracked)
      ∧ env.finalOutput = some 0
      ∧ process_video env fs = (Except.error PVErr.emptyOutput, ⟨true, some 0⟩))
  ∨ (∃ tracked n, env.inputExists = true ∧ env.templateExists = true
      ∧ env.templateReadable = true ∧ env.captureOpens = true ∧ env.writerOpens = true
      ∧ frameLoop env.templateW env.templateH env.threshold env.frames = Except.ok tracked
      ∧ env.finalOutput = some n ∧ ¬ n = 0
      ∧ process_video env fs =
          (Except.ok ⟨outputFileName env.inputName, pyFloatOr env.reportedFps 30, tracked⟩,
           ⟨true, some n⟩)) := by
  cases h1 : env.inputExists with
  | false => exact Or.inl ⟨rfl, by simp [process_video, h1]⟩
  | true =>
    cases h2 : env.templateExists with
    | false => exact Or.inr (Or.inl ⟨rfl, rfl, by simp [process_video, h1, h2]⟩)
    | true =>
      cases h3 : env.templateReadable with
      | false =>
        exact Or.inr (Or.inr (Or.inl ⟨rfl, rfl, rfl, by simp [process_video, h1, h2, h3]⟩))
      | true =>
        cases h4 : env.captureOpens with
        | false =>
          exact Or.inr (Or.inr (Or.inr (Or.inl ⟨rfl, rfl, rfl, rfl,
            by simp [process_video, h1, h2, h3, h4]⟩)))
        | true =>
          cases h5 : env.writerOpens with
          | false =>
            exact Or.inr (Or.inr (Or.inr (Or.inr (Or.inl ⟨rfl, rfl, rfl, rfl, rfl,
              by simp [process_video, h1, h2, h3, h4, h5]⟩))))
          | true =>
            cases hloop : frameLoop env.templateW env.templateH env.threshold env.frames with
            | error e =>
              refine Or.inr (Or.inr (Or.inr (Or.inr (Or.inr (Or.inl
                ⟨rfl, rfl, rfl, rfl, rfl, rfl, ?_⟩)))))
              simp [process_video, h1, h2, h3, h4, h5, hloop]
            | ok tracked =>
              cases hfo : env.finalOutput with
              | none =>
                refine Or.inr (Or.inr (Or.inr (Or.inr (Or.inr (Or.inr (Or.inl
                  ⟨rfl, rfl, rfl, rfl, rfl, ⟨tracked, rfl⟩, rfl, ?_⟩))))))
                simp [process_video, h1, h2, h3, h4, h5, hloop, hfo]
              | some n =>
                by_cases hn : n = 0
                · subst hn
                  refine Or.inr (Or.inr (Or.inr (Or.inr (Or.inr (Or.inr (Or.inr (Or.inl
                    ⟨rfl, rfl, rfl, rfl, rfl, ⟨tracked, rfl⟩, rfl, ?_⟩)))))))
                  simp [process_video, h1, h2, h3, h4, h5, hloop, hfo]
                · refine Or.inr (Or.inr (Or.inr (Or.inr (Or.inr (Or.inr (Or.inr (Or.inr
                    ⟨tracked, n, rfl, rfl, rfl, rfl, rfl, rfl, rfl, hn, ?_⟩)))))))
                  simp [process_video, h1, h2, h3, h4, h5, hloop, hfo, hn]

/-- C3: the frame loop fails with the watermark-not-found error exactly when the very
first frame's detection is absent; once a detection is established a later miss never
aborts and the tracked position is carried forward; and process_video can only raise
watermark-not-found out of a first-frame miss. -/
theorem C3_first_frame_only (tw th : Nat) (thr : ℚ) :
    (∀ frames : List ScoreMat,
        frameLoop tw th thr frames = Except.error () ↔
          ∃ f rest, frames = f :: rest ∧ _detect_watermark f tw th thr = none)
    ∧ (∀ (cur : WatermarkDetection) (f : ScoreMat) (rest : List ScoreMat),
        _detect_watermark f tw th thr = none →
          ∃ out, frameLoopGo tw th thr (some cur) (f :: rest) = Except.ok (cur :: out))
    ∧ (∀ (env : Env) (fs : FS),
        (process_video env fs).1 = Except.error PVErr.watermarkNotFound →
          ∃ f rest, env.frames = f :: rest
            ∧ _detect_watermark f env.templateW env.templateH env.threshold = none) := by
  refine ⟨frameLoop_error_iff tw th thr, ?_, ?_⟩
  · intro cur f rest hnone
    rcases frameLoopGo_some_ok tw th thr rest cur with ⟨out, hout, -⟩
    refine ⟨out, ?_⟩
    simp only [frameLoopGo, hnone, stepTracked, hout, Except.map]
  · intro env fs h
    rcases process_video_char env fs with ⟨-, heq⟩ | ⟨-, -, heq⟩ | ⟨-, -, -, heq⟩
      | ⟨-, -, -, -, heq⟩ | ⟨-, -, -, -, -, heq⟩ | ⟨-, -, -, -, -, hloop, heq⟩
      | ⟨-, -, -, -, -, -, -, heq⟩ | ⟨-, -, -, -, -, -, -, heq⟩
      | ⟨tracked, n, -, -, -, -, -, -, -, -, heq⟩
    · rw [heq] at h; simp at h
    · rw [heq] at h; simp at h
    · rw [heq] at h; simp at h
    · rw [heq] at h; simp at h
    · rw [heq] at h; simp at h
    · exact (frameLoop_error_iff env.templateW env.templateH env.threshold env.frames).mp hloop
    · rw [heq] at h; simp at h
    · rw [heq] at h; simp at h
    · rw [heq] at h; simp at h

/-- Witness for C3: a below-threshold first frame after an established detection is
carried forward, and the concrete first-frame-miss job fails out of its first frame. -/
theorem C3_first_frame_only_w :
    (∃ out, frameLoopGo 1 1 (mkRat 7 20) (some dHalf) [[[0]]] = Except.ok (dHalf :: out))
    ∧ (∃ f rest, envNoMark.frames = f :: rest
        ∧ _detect_watermark f envNoMark.templateW envNoMark.templateH envNoMark.threshold
            = none) :=
  ⟨(C3_first_frame_only 1 1 (mkRat 7 20)).2.1 dHalf [[0]] [] (by decide),
   (C3_first_frame_only 1 1 (mkRat 7 20)).2.2 envNoMark fs0 rfl⟩

/-- C1 amended: the watermark-not-found fault deletes the partial output before the
error is returned, and the faults raised before the writer is constructed leave the
filesystem untouched; but the empty-or-missing-output fault returns with the output
file left exactly as the codec produced it (it is not deleted). -/
theorem C1_cleanup (env : Env) (fs : FS) :
    ((process_video env fs).1 = Except.error PVErr.watermarkNotFound →
        ((process_video env fs).2).outputFile = none)
    ∧ (∀ e : PVErr,
        e = PVErr.inputMissing ∨ e = PVErr.templateNotFound ∨ e = PVErr.templateUnreadable
          ∨ e = PVErr.captureFailed →
        (process_video env fs).1 = Except.error e → (process_video env fs).2 = fs)
    ∧ ((process_video env fs).1 = Except.error PVErr.emptyOutput →
        ((process_video env fs).2).outputFile = env.finalOutput) := by
  rcases process_video_char env fs with ⟨-, heq⟩ | ⟨-, -, heq⟩ | ⟨-, -, -, heq⟩
    | ⟨-, -, -, -, heq⟩ | ⟨-, -, -, -, -, heq⟩ | ⟨-, -, -, -, -, -, heq⟩
    | ⟨-, -, -, -, -, -, hfo, heq⟩ | ⟨-, -, -, -, -, -, hfo, heq⟩
    | ⟨tracked, n, -, -, -, -, -, -, hfo, -, heq⟩ <;> rw [heq]
  · exact ⟨fun h => by simp at h, fun e hd _ => rfl, fun h => by simp at h⟩
  · exact ⟨fun h => by simp at h, fun e hd _ => rfl, fun h => by simp at h⟩
  · exact ⟨fun h => by simp at h, fun e hd _ => rfl, fun h => by simp at h⟩
  · exact ⟨fun h => by simp at h, fun e hd _ => rfl, fun h => by simp at h⟩
  · refine ⟨fun h => by simp at h, ?_, fun h => by simp at h⟩
    rintro e (rfl | rfl | rfl | rfl) h <;> simp at h
  · refine ⟨fun _ => rfl, ?_, fun h => by simp at h⟩
    rintro e (rfl | rfl | rfl | rfl) h <;> simp at h
  · refine ⟨fun h => by simp at h, ?_, fun _ => hfo.symm⟩
    rintro e (rfl | rfl | rfl | rfl) h <;> simp at h
  · refine ⟨fun h => by simp at h, ?_, fun _ => hfo.symm⟩
    rintro e (rfl | rfl | rfl | rfl) h <;> simp at h
  · refine ⟨fun h => by simp at h, ?_, fun h => by simp at h⟩
    rintro e hd h; simp at h

/-- C1 counterexample: a job that finds the watermark, writes its pass, but whose output
file comes out empty fails with the empty-output error while the empty artifact is left
on disk (the claim says it would be deleted before returning). -/
theorem C1_cleanup_cex :
    (process_video envEmptyOut fs0).1 = Except.error PVErr.emptyOutput
    ∧ ((process_video envEmptyOut fs0).2).outputFile = some 0
    ∧ ((process_video envEmptyOut fs0).2).outputFile ≠ none := by
  refine ⟨rfl, rfl, ?_⟩
  intro hc
  exact Option.noConfusion hc

/-- Witness for C1 amended at the concrete first-frame-miss job: the partial output is
gone after the watermark-not-found error. -/
theorem C1_cleanup_w :
    ((process_video envNoMark fs0).2).outputFile = none :=
  (C1_cleanup envNoMark fs0).1 rfl

/-- process_video's failure bit is a function of the environment alone. -/
theorem pvFailed_char (env : Env) (fs : FS) :
    pvFailed ((process_video env fs).1) = !(jobSucceeds env) := by
  rcases process_video_char env fs with ⟨h1, heq⟩ | ⟨h1, h2, heq⟩ | ⟨h1, h2, h3, heq⟩
    | ⟨h1, h2, h3, h4, heq⟩ | ⟨h1, h2, h3, h4, h5, heq⟩ | ⟨h1, h2, h3, h4, h5, hloop, heq⟩
    | ⟨h1, h2, h3, h4, h5, ⟨tracked, hloop⟩, hfo, heq⟩
    | ⟨h1, h2, h3, h4, h5, ⟨tracked, hloop⟩, hfo, heq⟩
    | ⟨tracked, n, h1, h2, h3, h4, h5, hloop, hfo, hn, heq⟩
  · rw [heq]; simp [pvFailed, jobSucceeds, h1]
  · rw [heq]; simp [pvFailed, jobSucceeds, h1, h2]
  · rw [heq]; simp [pvFailed, jobSucceeds, h1, h2, h3]
  · rw [heq]; simp [pvFailed, jobSucceeds, h1, h2, h3, h4]
  · rw [heq]; simp [pvFailed, jobSucceeds, h1, h2, h3, h4, h5]
  · rw [heq]; simp [pvFailed, jobSucceeds, h1, h2, h3, h4, h5, hloop]
  · rw [heq]; simp [pvFailed, jobSucceeds, h1, h2, h3, h4, h5, hloop, hfo]
  · rw [heq]; simp [pvFailed, jobSucceeds, h1, h2, h3, h4, h5, hloop, hfo]
  · rw [heq]; simp [pvFailed, jobSucceeds, h1, h2, h3, h4, h5, hloop, hfo, hn]

/-- On success, the result of process_video does not depend on the prior filesystem
state: a later job on the same environment overwrites whatever was there. -/
theorem pv_fs_indep (env : Env) (fs fs₂ : FS) (r : PVOk) (fs' : FS)
    (h : process_video env fs = (Except.ok r, fs')) :
    process_video env fs₂ = (Except.ok r, fs') := by
  rcases process_video_char env fs with ⟨-, heq⟩ | ⟨-, -, heq⟩ | ⟨-, -, -, heq⟩
    | ⟨-, -, -, -, heq⟩ | ⟨-, -, -, -, -, heq⟩ | ⟨-, -, -, -, -, -, heq⟩
    | ⟨-, -, -, -, -, -, -, heq⟩ | ⟨-, -, -, -, -, -, -, heq⟩
    | ⟨tracked, n, h1, h2, h3, h4, h5, hloop, hfo, hn, heq⟩
  · rw [heq] at h; simp at h
  · rw [heq] at h; simp at h
  · rw [heq] at h; simp at h
  · rw [heq] at h; simp at h
  · rw [heq] at h; simp at h
  · rw [heq] at h; simp at h
  · rw [heq] at h; simp at h
  · rw [heq] at h; simp at h
  · rw [heq] at h
    rcases process_video_char env fs₂ with ⟨h1', -⟩ | ⟨-, h2', -⟩ | ⟨-, -, h3', -⟩
      | ⟨-, -, -, h4', -⟩ | ⟨-, -, -, -, h5', -⟩ | ⟨-, -, -, -, -, hloop', -⟩
      | ⟨-, -, -, -, -, -, hfo', -⟩ | ⟨-, -, -, -, -, -, hfo', -⟩
      | ⟨tracked', n', -, -, -, -, -, hloop', hfo', -, heq'⟩
    · rw [h1] at h1'; exact Bool.noConfusion h1'
    · rw [h2] at h2'; exact Bool.noConfusion h2'
    · rw [h3] at h3'; exact Bool.noConfusion h3'
    · rw [h4] at h4'; exact Bool.noConfusion h4'
    · rw [h5] at h5'; exact Bool.noConfusion h5'
    · rw [hloop] at hloop'; exact Except.noConfusion hloop'
    · rw [hfo] at hfo'; exact Option.noConfusion hfo'
    · rw [hfo] at hfo'
      injection hfo' with h0
      exact absurd h0 hn
    · rw [hloop] at hloop'
      injection hloop' with ht
      subst ht
      rw [hfo] at hfo'
      injection hfo' with hn'
      subst hn'
      rw [heq']
      exact h

/-- C10: on success process_video returns the path named stem plus "_clean.mp4" inside
the (created) output directory; the output name depends on the input only through its
stem, and a later successful job on the same environment overwrites the earlier output
regardless of the prior filesystem state. -/
theorem C10_output_path (env : Env) (fs : FS) (r : PVOk) (fs' : FS)
    (h : process_video env fs = (Except.ok r, fs')) :
    r.outName = outputFileName env.inputName
    ∧ fs'.outputDirExists = true
    ∧ (∀ fs₂ : FS, process_video env fs₂ = (Except.ok r, fs'))
    ∧ (∀ n₁ n₂ : String, pathStem n₁ = pathStem n₂ →
        outputFileName n₁ = outputFileName n₂) := by
  have hind := fun fs₂ => pv_fs_indep env fs fs₂ r fs' h
  rcases process_video_char env fs with ⟨-, heq⟩ | ⟨-, -, heq⟩ | ⟨-, -, -, heq⟩
    | ⟨-, -, -, -, heq⟩ | ⟨-, -, -, -, -, heq⟩ | ⟨-, -, -, -, -, -, heq⟩
    | ⟨-, -, -, -, -, -, -, heq⟩ | ⟨-, -, -, -, -, -, -, heq⟩
    | ⟨tracked, n, -, -, -, -, -, -, -, -, heq⟩
  · rw [heq] at h; simp at h
  · rw [heq] at h; simp at h
  · rw [heq] at h; simp at h
  · rw [heq] at h; simp at h
  · rw [heq] at h; simp at h
  · rw [heq] at h; simp at h
  · rw [heq] at h; simp at h
  · rw [heq] at h; simp at h
  · rw [heq] at h
    rw [Prod.mk.injEq] at h
    obtain ⟨hr, hfs⟩ := h
    injection hr with hr'
    refine ⟨?_, ?_, hind, ?_⟩
    · rw [← hr']
    · rw [← hfs]
    · intro n₁ n₂ hstem
      unfold outputFileName
      rw [hstem]

/-- Witness for C10 at the concrete successful job, with two extensions on one stem. -/
theorem C10_output_path_w :
    rOk.outName = outputFileName envOk.inputName
    ∧ outputFileName "video.mp4" = outputFileName "video.avi" :=
  ⟨(C10_output_path envOk fs0 rOk fsDone rfl).1,
   (C10_output_path envOk fs0 rOk fsDone rfl).2.2.2 "video.mp4" "video.avi" (by decide)⟩

/-- C9: a zero (or unreadable, reported as zero) container frame rate does not fail the
job; the writer is opened at the fallback 30 when the reported rate is zero and at the
reported rate otherwise, and the failure outcome is independent of the reported rate. -/
theorem C9_fps (env : Env) (fs : FS) :
    (∀ (r : PVOk) (fs' : FS), process_video env fs = (Except.ok r, fs') →
        r.fpsUsed = (if env.reportedFps = 0 then 30 else env.reportedFps))
    ∧ (∀ q q' : ℚ,
        pvFailed ((process_video { env with reportedFps := q } fs).1)
          = pvFailed ((process_video { env with reportedFps := q' } fs).1)) := by
  constructor
  · intro r fs' h
    rcases process_video_char env fs with ⟨-, heq⟩ | ⟨-, -, heq⟩ | ⟨-, -, -, heq⟩
      | ⟨-, -, -, -, heq⟩ | ⟨-, -, -, -, -, heq⟩ | ⟨-, -, -, -, -, -, heq⟩
      | ⟨-, -, -, -, -, -, -, heq⟩ | ⟨-, -, -, -, -, -, -, heq⟩
      | ⟨tracked, n, -, -, -, -, -, -, -, -, heq⟩
    · rw [heq] at h; simp at h
    · rw [heq] at h; simp at h
    · rw [heq] at h; simp at h
    · rw [heq] at h; simp at h
    · rw [heq] at h; simp at h
    · rw [heq] at h; simp at h
    · rw [heq] at h; simp at h
    · rw [heq] at h; simp at h
    · rw [heq] at h
      rw [Prod.mk.injEq] at h
      injection h.1 with hr'
      rw [← hr']
      rfl
  · intro q q'
    rw [pvFailed_char, pvFailed_char]
    rfl

/-- Witness for C9 at the concrete successful job with reported rate 24. -/
theorem C9_fps_w :
    rOk.fpsUsed = (if (24 : ℚ) = 0 then 30 else 24) :=
  (C9_fps envOk fs0).1 rOk fsDone rfl

/-- C4: on a nonempty score matrix, _detect_watermark returns absent exactly when the
maximum correlation score over all template alignments is strictly below the threshold;
otherwise it returns the maximum-score alignment's location with that raw maximum as
confidence and the template's (width, height) as size. -/
theorem C4_detect (m : ScoreMat) (tw th : Nat) (thr : ℚ) (hne : matEntries m ≠ []) :
    ∃ s x y, (s, x, y) ∈ matEntries m ∧ (∀ e ∈ matEntries m, e.1 ≤ s)
      ∧ (_detect_watermark m tw th thr = none ↔ s < thr)
      ∧ (thr ≤ s → _detect_watermark m tw th thr = some ⟨(x, y), (tw, th), s⟩) := by
  rcases maxLocOf_spec m hne with ⟨r, hml, hmem, hmax⟩
  rcases r with ⟨s, x, y⟩
  refine ⟨s, x, y, hmem, hmax, ?_, ?_⟩
  · unfold _detect_watermark
    rw [hml]
    by_cases hlt : s < thr
    · simp only [if_pos hlt]
      exact iff_of_true trivial hlt
    · simp only [if_neg hlt]
      exact iff_of_false (by simp) hlt
  · intro hge
    unfold _detect_watermark
    rw [hml]
    simp only [if_neg (not_lt.mpr hge)]

/-- Witness for C4 at a concrete one-entry score matrix. -/
theorem C4_detect_w :
    ∃ s x y, (s, x, y) ∈ matEntries [[(1 : ℚ)]] ∧ (∀ e ∈ matEntries [[(1 : ℚ)]], e.1 ≤ s)
      ∧ (_detect_watermark [[(1 : ℚ)]] 1 1 (mkRat 7 20) = none ↔ s < mkRat 7 20)
      ∧ (mkRat 7 20 ≤ s →
          _detect_watermark [[(1 : ℚ)]] 1 1 (mkRat 7 20) = some ⟨(x, y), (1, 1), s⟩) :=
  C4_detect [[(1 : ℚ)]] 1 1 (mkRat 7 20) (by decide)

/-- C7 counterexample: confidence is the raw maximum correlation score, so with an
anti-correlated frame (score -1/2) and a negative threshold the detector returns a
detection whose confidence lies outside [0, 1]. -/
theorem C7_conf_cex :
    _detect_watermark [[mkRat (-1) 2]] 1 1 (-1) = some ⟨(0, 0), (1, 1), mkRat (-1) 2⟩
    ∧ ¬ (0 ≤ mkRat (-1) 2 ∧ mkRat (-1) 2 ≤ 1) := by
  exact ⟨by decide, by decide⟩

/-- C7 amended: a returned detection's confidence equals one of the correlation scores
(the maximum, by C4) and is at least the threshold; hence it lies in [0, 1] whenever the
threshold is nonnegative and the correlation scores are bounded by 1, but not for
negative thresholds. -/
theorem C7_conf (m : ScoreMat) (tw th : Nat) (thr : ℚ) (d : WatermarkDetection)
    (h : _detect_watermark m tw th thr = some d) :
    thr ≤ d.confidence
    ∧ (∃ x y, (d.confidence, x, y) ∈ matEntries m)
    ∧ (0 ≤ thr → (∀ e ∈ matEntries m, e.1 ≤ 1) →
        0 ≤ d.confidence ∧ d.confidence ≤ 1) := by
  unfold _detect_watermark at h
  cases hml : maxLocOf m with
  | none => rw [hml] at h; exact absurd h (by simp)
  | some r =>
    rcases r with ⟨v, x, y⟩
    rw [hml] at h
    dsimp only at h
    by_cases hlt : v < thr
    · rw [if_pos hlt] at h
      exact absurd h (by simp)
    · rw [if_neg hlt] at h
      have hd : d = ⟨(x, y), (tw, th), v⟩ := (Option.some.inj h).symm
      subst hd
      have hmem : (⟨v, x, y⟩ : ℚ × Nat × Nat) ∈ matEntries m :=
        maxLocOf_mem m ⟨v, x, y⟩ hml
      refine ⟨le_of_not_lt hlt, ⟨x, y, hmem⟩, ?_⟩
      intro hthr hub
      exact ⟨le_trans hthr (le_of_not_lt hlt), hub _ hmem⟩

/-- Witness for C7 amended at a concrete in-range detection. -/
theorem C7_conf_w : 0 ≤ dOne.confidence ∧ dOne.confidence ≤ 1 :=
  (C7_conf [[(1 : ℚ)]] 1 1 (mkRat 7 20) dOne (by decide)).2.2 (by decide) (by decide)

theorem hit5_eq_true (src : Nat → Nat → Nat) (i j a b : Nat) :
    hit5 src i j a b = true ↔
      i ≤ a + 2 ∧ a ≤ i + 2 ∧ j ≤ b + 2 ∧ b ≤ j + 2 ∧ src a b ≠ 0 := by
  unfold hit5
  simp [Bool.and_eq_true, decide_eq_true_eq, and_assoc]

theorem dilate5_eq_255_iff (H W : Nat) (src : Nat → Nat → Nat) (i j : Nat) :
    dilate5 H W src i j = 255 ↔
      ∃ a, a < H ∧ ∃ b, b < W
        ∧ (i ≤ a + 2 ∧ a ≤ i + 2 ∧ j ≤ b + 2 ∧ b ≤ j + 2 ∧ src a b ≠ 0) := by
  unfold dilate5
  split
  · next hcond =>
    simp only [List.any_eq_true, List.mem_range, hit5_eq_true] at hcond
    exact iff_of_true rfl hcond
  · next hcond =>
    simp only [List.any_eq_true, List.mem_range, hit5_eq_true] at hcond
    exact iff_of_false (by decide) hcond

theorem rectMask_ne_zero (d : WatermarkDetection) (i j : Nat) (h : inBBox d i j) :
    rectMask d i j ≠ 0 := by
  simp [rectMask, if_pos h]

/-- C5 amended: the mask has the frame's dimensions and is binary valued; every in-frame
pixel of the unexpanded bounding box is fill; the dilated fill region always contains the
box, and it is a strict superset of it whenever the box clipped to the frame is nonempty
and does not cover the whole frame — when it does cover the frame (or lies outside it)
no fill pixel outside the box exists, so strictness fails in general. -/
theorem C5_mask (H W : Nat) (d : WatermarkDetection) :
    (_build_inpaint_mask H W d).H = H ∧ (_build_inpaint_mask H W d).W = W
    ∧ (∀ i j, (_build_inpaint_mask H W d).pix i j = 0
        ∨ (_build_inpaint_mask H W d).pix i j = 255)
    ∧ (∀ i j, i < H → j < W → inBBox d i j → (_build_inpaint_mask H W d).pix i j = 255)
    ∧ (d.top_left.2 < H → d.top_left.1 < W → 1 ≤ d.size.2 → 1 ≤ d.size.1 →
        (0 < d.top_left.2 ∨ d.top_left.2 + d.size.2 < H ∨ 0 < d.top_left.1
          ∨ d.top_left.1 + d.size.1 < W) →
        ∃ i j, i < H ∧ j < W ∧ (_build_inpaint_mask H W d).pix i j = 255
          ∧ ¬ inBBox d i j) := by
  obtain ⟨⟨x, y⟩, ⟨w, h⟩, conf⟩ := d
  refine ⟨rfl, rfl, ?_, ?_, ?_⟩
  · intro i j
    simp only [_build_inpaint_mask]
    unfold dilate5
    split
    · exact Or.inr rfl
    · exact Or.inl rfl
  · intro i j hi hj hin
    simp only [_build_inpaint_mask]
    rw [dilate5_eq_255_iff]
    exact ⟨i, hi, j, hj, by omega, by omega, by omega, by omega,
      rectMask_ne_zero _ i j hin⟩
  · intro hy hx hh hw hcase
    simp only at hy hx hh hw hcase
    have hbox : ∀ a b : Nat, y ≤ a → a < y + h → x ≤ b → b < x + w →
        inBBox ⟨⟨x, y⟩, ⟨w, h⟩, conf⟩ a b := by
      intro a b h1 h2 h3 h4
      simp only [inBBox]
      exact ⟨h1, h2, h3, h4⟩
    have hnbox : ∀ a b : Nat, (a < y ∨ y + h ≤ a ∨ b < x ∨ x + w ≤ b) →
        ¬ inBBox ⟨⟨x, y⟩, ⟨w, h⟩, conf⟩ a b := by
      intro a b hab hc
      simp only [inBBox] at hc
      omega
    simp only [_build_inpaint_mask]
    rcases hcase with h0 | h0 | h0 | h0
    · refine ⟨y - 1, x, by omega, hx, ?_, hnbox _ _ (by omega)⟩
      rw [dilate5_eq_255_iff]
      exact ⟨y, hy, x, hx, by omega, by omega, by omega, by omega,
        rectMask_ne_zero _ y x (hbox y x (by omega) (by omega) (by omega) (by omega))⟩
    · refine ⟨y + h, x, by omega, hx, ?_, hnbox _ _ (by omega)⟩
      rw [dilate5_eq_255_iff]
      exact ⟨y + h - 1, by omega, x, hx, by omega, by omega, by omega, by omega,
        rectMask_ne_zero _ _ x
          (hbox (y + h - 1) x (by omega) (by omega) (by omega) (by omega))⟩
    · refine ⟨y, x - 1, hy, by omega, ?_, hnbox _ _ (by omega)⟩
      rw [dilate5_eq_255_iff]
      exact ⟨y, hy, x, hx, by omega, by omega, by omega, by omega,
        rectMask_ne_zero _ y x (hbox y x (by omega) (by omega) (by omega) (by omega))⟩
    · refine ⟨y, x + w, hy, by omega, ?_, hnbox _ _ (by omega)⟩
      rw [dilate5_eq_255_iff]
      exact ⟨y, hy, x + w - 1, by omega, by omega, by omega, by omega, by omega,
        rectMask_ne_zero _ y _
          (hbox y (x + w - 1) (by omega) (by omega) (by omega) (by omega))⟩

/-- C5 counterexample: on a 1x1 frame fully covered by the detection's box, every fill
pixel lies inside the unexpanded bounding box, so the dilated fill region equals the box
instead of being a strict superset of it. -/
theorem C5_mask_cex :
    (∀ i, i < 1 → ∀ j, j < 1 → inBBox dOne i j → (_build_inpaint_mask 1 1 dOne).pix i j = 255)
    ∧ (∀ i, i < 1 → ∀ j, j < 1 → (_build_inpaint_mask 1 1 dOne).pix i j = 255 →
        inBBox dOne i j) := by
  exact ⟨by decide, by decide⟩

/-- Witness for C5 amended: for a 2x2 box strictly inside a 4x4 frame the fill region
strictly exceeds the box. -/
theorem C5_mask_w :
    ∃ i j, i < 4 ∧ j < 4 ∧ (_build_inpaint_mask 4 4 dMid).pix i j = 255
      ∧ ¬ inBBox dMid i j :=
  (C5_mask 4 4 dMid).2.2.2.2 (by decide) (by decide) (by decide) (by decide)
    (Or.inl (by decide))

/-- C6: the reconstructed frame keeps the input's dimensions and channel count, every
pixel marked keep (mask value 0) equals the corresponding input pixel exactly, and only
fill pixels are replaced (by the synthesized value). -/
theorem C6_inpaint (img : ImageQ) (mask : MaskImg) :
    (inpaint img mask).H = img.H ∧ (inpaint img mask).W = img.W
    ∧ (inpaint img mask).C = img.C
    ∧ (∀ i j c, mask.pix i j = 0 → (inpaint img mask).pix i j c = img.pix i j c)
    ∧ (∀ i j c, mask.pix i j ≠ 0 →
        (inpaint img mask).pix i j c = synthPix img mask i j c) := by
  refine ⟨rfl, rfl, rfl, ?_, ?_⟩
  · intro i j c hk
    simp only [inpaint]
    rw [if_pos hk]
  · intro i j c hf
    simp only [inpaint]
    rw [if_neg hf]

/-- Witness for C6: a keep pixel of a concrete frame passes through unchanged. -/
theorem C6_inpaint_w : (inpaint imgConst maskZero).pix 0 0 0 = imgConst.pix 0 0 0 :=
  (C6_inpaint imgConst maskZero).2.2.2.1 0 0 0 rfl

/-- C8: the upload endpoint rejects the request with HTTP 400 leaving the filesystem
untouched exactly when the filename's lowercased pathlib suffix is not one of .mp4,
.mov, .mkv, .avi, .webm; the decision reads nothing but the filename. -/
theorem C8_upload (filename : String) (env : Env) (fs : FS) :
    ((process_upload filename env fs).1 = UploadOutcome.rejected 400
      ∧ (process_upload filename env fs).2 = fs)
    ↔ strLower (pathSuffix filename) ∉ allowedSuffixes := by
  unfold process_upload
  by_cases h0 : filename = ""
  · subst h0
    rw [if_pos rfl]
    exact iff_of_true ⟨rfl, rfl⟩ (by decide)
  · rw [if_neg h0]
    by_cases hmem : strLower (pathSuffix filename) ∈ allowedSuffixes
    · rw [if_pos hmem]
      constructor
      · rintro ⟨hc, -⟩
        exact absurd hc (by simp)
      · intro hc
        exact absurd hmem hc
    · rw [if_neg hmem]
      exact iff_of_true ⟨rfl, rfl⟩ hmem

end Sora
